import Mathlib

/-!
Verification of the `zpalin/container` dependency-injection container.

The Go source (package `container`) is shallowly embedded below.  Go
`reflect.Type` values are modelled by the inductive `GoType` (concrete
struct types, interface types, and pointer types); instances are modelled
by allocation identifiers (`Val`), handed out by a counter in the
container state, so that instance identity (Go pointer identity) is
observable.  Go maps keyed by `reflect.Type` become association lists
with map-faithful set/delete operations, and the `creating` map (used as
a set) becomes a duplicate-free-by-construction list with set insert and
map-style delete (delete removes the key entirely).

The mutually recursive resolution procedure
(`findDep` / `getOrCreateComponent` / `getOrCreateImpl` /
`createComponent` / `wireComponent` / `executeFunc`-parameter loop) can
diverge in Go (direct concrete cycles are not guarded), so it is
embedded as one fuel-indexed interpreter `interp`, structurally
recursive on the fuel; `Err.outOfFuel` marks exhausted fuel and
corresponds to no terminating Go behaviour.  `log.Fatal` and `panic`
both terminate the resolving process and are modelled as errors that
carry the final state; the `defer delete(c.creating, typ)` in
`createComponent` is modelled by removing the guard entry on both the
ok and the error result, which matches Go's deferred delete on the
panic path (on the `log.Fatal` path the process exits at once, so no
state after it is observable).

Static information about the Go program's types (method sets, struct
fields, interface satisfaction) is a parameter `World`.  Go method-set
rules matter for faithfulness: `typ.MethodByName("New")` on the *value*
type (used by `constructorArgCount`) finds `New` only when it is
declared with a value receiver, while `reflect.New(typ)` produces a
pointer value whose method set contains methods with either receiver
kind (used by `wireComponent` and the `Init` loop of `Build`).  The
`newSig` field therefore records the receiver kind together with the
parameter types.
-/

namespace DI

/-- GoType models `reflect.Type`: a concrete (struct) type, an interface
type, or a pointer type.  `conc` and `iface` carry opaque identifiers. -/
inductive GoType : Type
  | conc : Nat → GoType
  | iface : Nat → GoType
  | ptr : GoType → GoType
deriving DecidableEq, Repr

/-- Val is an instance identity: the model of a Go pointer produced by
`reflect.New` or supplied by the user. -/
abbrev Val : Type := Nat

/-- Req identifies the requester (`bld` in the Go source) that is
threaded into error messages: the component type being wired, or the
function passed to `Exec`. -/
inductive Req : Type
  | ty : GoType → Req
  | fn : List GoType → Req
deriving DecidableEq, Repr

/-- Err enumerates the fatal outcomes of the Go code (`log.Fatal` and
`panic` sites), carrying the data printed in the corresponding message,
plus `outOfFuel` for exhausted interpreter fuel (no terminating Go
behaviour corresponds to it). -/
inductive Err : Type
  | outOfFuel : Err
  | elemPanic : GoType → Err
  | notAnInterface : GoType → Err
  | notImplements : GoType → GoType → Err
  | noSuchDep : GoType → Err
  | noImpl : GoType → Req → Err
  | loadNotFound : GoType → Err
deriving DecidableEq, Repr

instance {ε α : Type} [DecidableEq ε] [DecidableEq α] : DecidableEq (Except ε α) := fun x y =>
  match x, y with
  | .ok a, .ok b =>
    if h : a = b then .isTrue (congrArg Except.ok h)
    else .isFalse (fun hh => h (Except.ok.inj hh))
  | .error a, .error b =>
    if h : a = b then .isTrue (congrArg Except.error h)
    else .isFalse (fun hh => h (Except.error.inj hh))
  | .ok _, .error _ => .isFalse (fun hh => Except.noConfusion hh)
  | .error _, .ok _ => .isFalse (fun hh => Except.noConfusion hh)

/-- lookupK is association-list lookup, the model of reading a Go map. -/
def lookupK {α : Type} : List (GoType × α) → GoType → Option α
  | [], _ => none
  | (a, b) :: ts, k => if a = k then some b else lookupK ts k

/-- eraseK removes every entry with the given key, the model of Go map
delete. -/
def eraseK {α : Type} : List (GoType × α) → GoType → List (GoType × α)
  | [], _ => []
  | (a, b) :: ts, k => if a = k then eraseK ts k else (a, b) :: eraseK ts k

/-- setK sets the value of a key, the model of Go map assignment. -/
def setK {α : Type} (l : List (GoType × α)) (k : GoType) (v : α) : List (GoType × α) :=
  (k, v) :: eraseK l k

/-- memT is list membership as a Bool. -/
def memT : List GoType → GoType → Bool
  | [], _ => false
  | a :: ts, g => if a = g then true else memT ts g

/-- insertT adds a type to a set-like list (the `creating` map used as a
set), keeping it duplicate-free. -/
def insertT (l : List GoType) (g : GoType) : List GoType :=
  if memT l g then l else g :: l

/-- eraseT removes every occurrence of a type, the model of
`delete(c.creating, typ)`. -/
def eraseT : List GoType → GoType → List GoType
  | [], _ => []
  | a :: ts, g => if a = g then eraseT ts g else a :: eraseT ts g

/-- St is the state of a `depContainer` (part_001 lines 14-21), extended
with an allocation counter `nextVal` (instance identity) and a log
`inits` of invocations of the `Init` lifecycle hook, recorded as
(component type, instance). -/
structure St : Type where
  types : List GoType
  impls : List (GoType × GoType)
  refs : List (GoType × Val)
  creating : List GoType
  hasBuilt : Bool
  nextVal : Val
  inits : List (GoType × Val)
deriving DecidableEq, Repr

/-- World is the static type information of the Go program.  `newSig g`
gives the `New` method of `g` as (has value receiver?, parameter types
excluding the receiver), or `none` when `g` declares no `New`.
`hasInit g` says whether the pointer form of `g` has an `Init` method.
`fields g` lists the struct fields of `g` in declaration order as
(settable by reflection i.e. exported?, field type).  `ptrImplements g i`
is `reflect.New(g).Type().Implements(i)`. -/
structure World : Type where
  newSig : GoType → Option (Bool × List GoType)
  hasInit : GoType → Bool
  fields : GoType → List (Bool × GoType)
  ptrImplements : GoType → GoType → Bool

/-- constructorArgCount models part_001 lines 104-110: it looks `New` up
on the value type, so only a value-receiver `New` is found (Go method
sets); for a found method, `Method.Type.NumIn()` counts the receiver,
hence `1 +` the parameter count.  `-1` when not found. -/
def constructorArgCount (W : World) (g : GoType) : Int :=
  match W.newSig g with
  | some (true, ps) => 1 + ps.length
  | _ => -1

/-- findScan is the loop of `findImplementor` (part_001 lines 238-247):
scan the registered types in order for the first whose pointer form
implements the interface and that is not currently being created; bind
and return it, else fall through to the panic. -/
def findScan (W : World) (c : St) (bld : Req) (i : GoType) : List GoType → St × Except Err GoType
  | [] => (c, .error (.noImpl i bld))
  | t :: ts =>
    if W.ptrImplements t i then
      if memT c.creating t then findScan W c bld i ts
      else ({ c with impls := setK c.impls i t }, .ok t)
    else findScan W c bld i ts

/-- findImplementor models part_001 lines 230-249: use an existing
binding unless its target is currently being created; otherwise scan
and bind; otherwise fail, naming the interface and the requester. -/
def findImplementor (W : World) (c : St) (bld : Req) (i : GoType) : St × Except Err GoType :=
  match lookupK c.impls i with
  | some t => if memT c.creating t then findScan W c bld i c.types else (c, .ok t)
  | none => findScan W c bld i c.types

/-- Call names the mutually recursive operations of the resolver, so
that they can be interpreted by a single fuel-indexed function. -/
inductive Call : Type
  | findDep : Req → GoType → Call
  | gOCC : GoType → Call
  | gOCImpl : Req → GoType → Call
  | create : GoType → Call
  | wire : GoType → Val → Call
  | wireFields : GoType → List (Bool × GoType) → Call
  | resolveParams : Req → List GoType → Call

/-- interp is the fuel-indexed interpreter of the mutually recursive
resolver of part_001:
`findDep` (lines 145-155), `getOrCreateComponent` (157-163),
`getOrCreateImpl` (251-254), `createComponent` (188-197),
`wireComponent` (165-186) and the parameter loop of `executeFunc`
(256-264).  Unit-valued operations return the dummy value `0`.  In the
`findDep` value-type case the Go code dereferences the resolved pointer
(`.Elem()`), producing a struct copy; identity of that copy is not
tracked, the returned `Val` is the identity of the backing instance. -/
def interp (W : World) : Nat → Call → St → St × Except Err Val
  | 0, _, c => (c, .error .outOfFuel)
  | n + 1, .findDep bld g, c =>
    match g with
    | .ptr g2 => interp W n (.gOCC g2) c
    | .iface i => interp W n (.gOCImpl bld (.iface i)) c
    | .conc t => interp W n (.gOCC (.conc t)) c
  | n + 1, .gOCC g, c =>
    if memT c.types g then
      match lookupK c.refs g with
      | some v => (c, .ok v)
      | none => interp W n (.create g) c
    else (c, .error (.noSuchDep g))
  | n + 1, .gOCImpl bld i, c =>
    match findImplementor W c bld i with
    | (c2, .ok t) => interp W n (.gOCC t) c2
    | (c2, .error e) => (c2, .error e)
  | n + 1, .create g, c =>
    match interp W n (.wire g c.nextVal)
        { c with creating := insertT c.creating g, nextVal := c.nextVal + 1 } with
    | (c2, r) => ({ c2 with creating := eraseT c2.creating g }, r)
  | n + 1, .wire g v, c =>
    match W.newSig g with
    | none =>
      match interp W n (.wireFields g (W.fields g)) c with
      | (c2, .ok _) => ({ c2 with refs := setK c2.refs g v }, .ok v)
      | (c2, .error e) => (c2, .error e)
    | some (_, ps) =>
      match interp W n (.resolveParams (.ty g) ps) c with
      | (c2, .ok _) => ({ c2 with refs := setK c2.refs g v }, .ok v)
      | (c2, .error e) => (c2, .error e)
  | n + 1, .wireFields g fs, c =>
    match fs with
    | [] => (c, .ok 0)
    | (canSet, ft) :: rest =>
      if canSet then
        match interp W n (.findDep (.ty g) ft) c with
        | (c2, .ok _) => interp W n (.wireFields g rest) c2
        | (c2, .error e) => (c2, .error e)
      else interp W n (.wireFields g rest) c
  | n + 1, .resolveParams bld ps, c =>
    match ps with
    | [] => (c, .ok 0)
    | p :: rest =>
      match interp W n (.findDep bld p) c with
      | (c2, .ok _) => interp W n (.resolveParams bld rest) c2
      | (c2, .error e) => (c2, .error e)

/-- findDep models part_001 lines 145-155. -/
def findDep (fuel : Nat) (W : World) (bld : Req) (g : GoType) (c : St) : St × Except Err Val :=
  interp W fuel (.findDep bld g) c

/-- getOrCreateComponent models part_001 lines 157-163 (with
`verifyRegistry`, lines 136-143, inlined as the membership test). -/
def getOrCreateComponent (fuel : Nat) (W : World) (g : GoType) (c : St) : St × Except Err Val :=
  interp W fuel (.gOCC g) c

/-- getOrCreateImpl models part_001 lines 251-254. -/
def getOrCreateImpl (fuel : Nat) (W : World) (bld : Req) (i : GoType) (c : St) :
    St × Except Err Val :=
  interp W fuel (.gOCImpl bld i) c

/-- createComponent models part_001 lines 188-197. -/
def createComponent (fuel : Nat) (W : World) (g : GoType) (c : St) : St × Except Err Val :=
  interp W fuel (.create g) c

/-- wireComponent models part_001 lines 165-186. -/
def wireComponent (fuel : Nat) (W : World) (g : GoType) (v : Val) (c : St) :
    St × Except Err Val :=
  interp W fuel (.wire g v) c

/-- executeFunc models part_001 lines 256-264: resolve each parameter in
order; the call of the function body itself is external code with no
container effect. -/
def executeFunc (fuel : Nat) (W : World) (bld : Req) (ps : List GoType) (c : St) :
    St × Except Err Val :=
  interp W fuel (.resolveParams bld ps) c

/-- buildLoop is the first loop of `Build` (part_001 lines 118-124):
create every registered type that has no cache entry yet. -/
def buildLoop (fuel : Nat) (W : World) : List GoType → St → St × Except Err Unit
  | [], c => (c, .ok ())
  | t :: ts, c =>
    if (lookupK c.refs t).isSome then buildLoop fuel W ts c
    else
      match createComponent fuel W t c with
      | (c2, .ok _) => buildLoop fuel W ts c2
      | (c2, .error e) => (c2, .error e)

/-- initLoop is the second loop of `Build` (part_001 lines 127-131):
invoke `Init` on every cached instance that has one.  Iteration order of
the Go map is unspecified; the model iterates the association list. -/
def initLoop (W : World) : List (GoType × Val) → St → St
  | [], c => c
  | (g, v) :: rs, c =>
    if W.hasInit g then initLoop W rs { c with inits := c.inits ++ [(g, v)] }
    else initLoop W rs c

/-- ctorLe is the sort order of `Build`: Go's `sort.Slice` with
`less i j := constructorArgCount(types[i]) < constructorArgCount(types[j])`
produces some list with no inversion under `<`, i.e. sorted under `≤`;
the model fixes stable insertion sort by `≤`, one admissible result. -/
def ctorLe (W : World) (a b : GoType) : Prop :=
  constructorArgCount W a ≤ constructorArgCount W b

instance (W : World) : DecidableRel (ctorLe W) := fun a b =>
  inferInstanceAs (Decidable (constructorArgCount W a ≤ constructorArgCount W b))

/-- Build models part_001 lines 112-134: sort the registered types by
constructor argument count, create those without a cache entry, then
invoke `Init` on every cached instance, then mark the container built. -/
def Build (fuel : Nat) (W : World) (c : St) : St × Except Err Unit :=
  let c0 : St := { c with types := List.insertionSort (ctorLe W) c.types }
  match buildLoop fuel W c0.types c0 with
  | (c1, .ok _) =>
    let c2 := initLoop W c1.refs c1
    ({ c2 with hasBuilt := true }, .ok ())
  | (c1, .error e) => (c1, .error e)

/-- getNormalizedType models part_001 lines 219-228. -/
def getNormalizedType (c : St) : GoType → Option GoType
  | .ptr g => getNormalizedType c g
  | .iface i => lookupK c.impls (.iface i)
  | .conc t => some (.conc t)

/-- TryLoad models part_001 lines 209-217: normalize the marker's type,
then read the cache.  It only reads the state (the Go method performs no
writes), hence the state-free signature. -/
def TryLoad (c : St) (m : GoType) : Option Val :=
  match getNormalizedType c m with
  | some g => lookupK c.refs g
  | none => none

/-- Load models part_001 lines 200-205: `TryLoad`, with a fatal error on
a miss that names the type of the argument marker. -/
def Load (c : St) (m : GoType) : Except Err Val :=
  match TryLoad c m with
  | some v => .ok v
  | none => .error (.loadNotFound m)

/-- RegComp is an argument of `Register`: a struct value (registers the
type for later construction) or a pointer (registers the instance). -/
inductive RegComp : Type
  | value : GoType → RegComp
  | pointer : GoType → Val → RegComp

/-- Register models part_001 lines 72-82 for one argument: a pointer is
dereferenced to its pointee type and stored as that type's cache entry;
the type is appended to the registry either way. -/
def Register (c : St) (r : RegComp) : St :=
  match r with
  | .value g => { c with types := c.types ++ [g] }
  | .pointer g v => { c with refs := setK c.refs g v, types := c.types ++ [g] }

/-- RegisterAsInterface models part_001 lines 84-102.  The marker must
be a pointer to an interface (`reflect.TypeOf(iface).Elem()` panics on a
non-pointer and the explicit check rejects a non-interface pointee); the
cache write for a pointer component happens before the implements
check, exactly as in the source. -/
def RegisterAsInterface (W : World) (c : St) (marker : GoType) (r : RegComp) :
    St × Except Err Unit :=
  match marker with
  | .ptr (.iface i) =>
    let g : GoType :=
      match r with
      | .value g => g
      | .pointer g _ => g
    let c1 : St :=
      match r with
      | .value _ => c
      | .pointer g2 v => { c with refs := setK c.refs g2 v }
    if W.ptrImplements g (.iface i) then
      ({ c1 with types := c1.types ++ [g], impls := setK c1.impls (.iface i) g }, .ok ())
    else (c1, .error (.notImplements g (.iface i)))
  | .ptr m2 => (c, .error (.notAnInterface (.ptr m2)))
  | m => (c, .error (.elemPanic m))

/-- execTop is the tail of `Exec` after the build check: resolve the
function's parameters and call it (the body is external). -/
def execTop (fuel : Nat) (W : World) (sig : List GoType) (c : St) : St × Except Err Unit :=
  match executeFunc fuel W (.fn sig) sig c with
  | (c1, .ok _) => (c1, .ok ())
  | (c1, .error e) => (c1, .error e)

/-- Exec models part_001 lines 266-272: trigger the initial build when
it has not completed, then inject the function's parameters and call it. -/
def Exec (fuel : Nat) (W : World) (sig : List GoType) (c : St) : St × Except Err Unit :=
  if c.hasBuilt then execTop fuel W sig c
  else
    match Build fuel W c with
    | (c1, .ok _) => execTop fuel W sig c1
    | (c1, .error e) => (c1, .error e)

/-- runWire is the tail of `Run` after the build check: wire the
runnable (pointee type `g`, instance `v`) and call its `Run` method
(external code). -/
def runWire (fuel : Nat) (W : World) (g : GoType) (v : Val) (c : St) : St × Except Err Unit :=
  match wireComponent fuel W g v c with
  | (c1, .ok _) => (c1, .ok ())
  | (c1, .error e) => (c1, .error e)

/-- Run models part_001 lines 274-282: trigger the initial build when it
has not completed, then wire the supplied runnable and invoke it. -/
def Run (fuel : Nat) (W : World) (g : GoType) (v : Val) (c : St) : St × Except Err Unit :=
  if c.hasBuilt then runWire fuel W g v c
  else
    match Build fuel W c with
    | (c1, .ok _) => runWire fuel W g v c1
    | (c1, .error e) => (c1, .error e)

/-- findFirstSpec is the scan of the implementor search as worded by the
specification: the first registered type, in registration order, whose
pointer form implements the interface and that is not currently under
construction, recorded as the binding; a fatal error naming interface
and requester when there is none.  Written from the spec's words, to be
compared with `findImplementor`. -/
def findFirstSpec (W : World) (c : St) (bld : Req) (i : GoType) : St × Except Err GoType :=
  match c.types.find? (fun t => W.ptrImplements t i && !(memT c.creating t)) with
  | some t => ({ c with impls := setK c.impls i t }, .ok t)
  | none => (c, .error (.noImpl i bld))

/-- findImplementorSpec is the implementor search as worded by the
specification and claim C1: use an existing binding when its target is
not under construction, otherwise scan.  Written from the spec's words,
to be compared with `findImplementor`. -/
def findImplementorSpec (W : World) (c : St) (bld : Req) (i : GoType) : St × Except Err GoType :=
  match lookupK c.impls i with
  | some t =>
    if memT c.creating t = false then (c, .ok t) else findFirstSpec W c bld i
  | none => findFirstSpec W c bld i

/-- initsOf lists the (type, instance) pairs of the cache entries whose
type has an `Init` hook, in cache order: the invocations one pass of the
`Init` loop of `Build` performs. -/
def initsOf (W : World) (rs : List (GoType × Val)) : List (GoType × Val) :=
  rs.filter (fun p => W.hasInit p.1)

/-! ### Map and set helper lemmas -/

theorem lookupK_eraseK_ne {α : Type} (l : List (GoType × α)) {k k2 : GoType} (h : k2 ≠ k) :
    lookupK (eraseK l k) k2 = lookupK l k2 := by
  induction l with
  | nil => rfl
  | cons p ts ih =>
    obtain ⟨a, b⟩ := p
    by_cases ha : a = k
    · subst ha
      have : a ≠ k2 := fun hh => h hh.symm
      simp [eraseK, lookupK, this, ih]
    · by_cases ha2 : a = k2
      · subst ha2
        simp [eraseK, lookupK, ha]
      · simp [eraseK, lookupK, ha, ha2, ih]

theorem lookupK_setK_self {α : Type} (l : List (GoType × α)) (k : GoType) (v : α) :
    lookupK (setK l k v) k = some v := by
  simp [setK, lookupK]

theorem lookupK_setK_ne {α : Type} (l : List (GoType × α)) {k k2 : GoType} (h : k2 ≠ k)
    (v : α) : lookupK (setK l k v) k2 = lookupK l k2 := by
  have : k ≠ k2 := fun hh => h hh.symm
  simp [setK, lookupK, this, lookupK_eraseK_ne l h]

theorem isSome_lookupK_setK {α : Type} (l : List (GoType × α)) (k k2 : GoType) (v : α)
    (h : (lookupK l k2).isSome = true) : (lookupK (setK l k v) k2).isSome = true := by
  by_cases hk : k2 = k
  · subst hk
    simp [lookupK_setK_self]
  · rw [lookupK_setK_ne l hk]
    exact h

theorem memT_eraseT_self (l : List GoType) (g : GoType) : memT (eraseT l g) g = false := by
  induction l with
  | nil => rfl
  | cons a ts ih =>
    by_cases ha : a = g
    · simp [eraseT, ha, ih]
    · simp [eraseT, memT, ha, ih]

theorem memT_insertT_self (l : List GoType) (g : GoType) : memT (insertT l g) g = true := by
  by_cases h : memT l g
  · simp [insertT, h]
  · simp [insertT, h, memT]

theorem memT_append_single (l : List GoType) (g : GoType) : memT (l ++ [g]) g = true := by
  induction l with
  | nil => simp [memT]
  | cons a ts ih =>
    by_cases ha : a = g <;> simp [memT, ha, ih]

theorem memT_true_iff (l : List GoType) (g : GoType) : memT l g = true ↔ g ∈ l := by
  induction l with
  | nil => simp [memT]
  | cons a ts ih =>
    by_cases h : a = g
    · simp [memT, h]
    · simp [memT, h, ih, List.mem_cons, Ne.symm h]

theorem memT_false_iff (l : List GoType) (g : GoType) : memT l g = false ↔ g ∉ l := by
  rw [← memT_true_iff]
  cases memT l g <;> simp

/-! ### State preservation across the resolver

The resolver never changes the registry, the built flag, or the `Init`
log, and never removes cache entries; `Pres` packages this. -/

/-- Pres relates a pre-state and a post-state of a resolver operation:
the registry, built flag and Init log are unchanged, and cache entries
are never removed. -/
def Pres (c c2 : St) : Prop :=
  c2.types = c.types ∧ c2.hasBuilt = c.hasBuilt ∧ c2.inits = c.inits ∧
    ∀ k, (lookupK c.refs k).isSome = true → (lookupK c2.refs k).isSome = true

theorem pres_refl (c : St) : Pres c c :=
  ⟨rfl, rfl, rfl, fun _ h => h⟩

theorem pres_trans {a b c : St} (h1 : Pres a b) (h2 : Pres b c) : Pres a c :=
  ⟨h2.1.trans h1.1, h2.2.1.trans h1.2.1, h2.2.2.1.trans h1.2.2.1,
    fun k hk => h2.2.2.2 k (h1.2.2.2 k hk)⟩

theorem findScan_pres (W : World) (c : St) (bld : Req) (i : GoType) :
    ∀ ts, Pres c (findScan W c bld i ts).1 := by
  intro ts
  induction ts with
  | nil => exact pres_refl c
  | cons t ts ih =>
    by_cases h1 : W.ptrImplements t i = true
    · by_cases h2 : memT c.creating t = true
      · simpa [findScan, h1, h2] using ih
      · simp only [findScan, h1, if_true, h2, if_false]
        exact ⟨rfl, rfl, rfl, fun k hk => hk⟩
    · simpa [findScan, h1] using ih

theorem findImplementor_pres (W : World) (c : St) (bld : Req) (i : GoType) :
    Pres c (findImplementor W c bld i).1 := by
  unfold findImplementor
  cases h : lookupK c.impls i with
  | none => exact findScan_pres W c bld i c.types
  | some t =>
    by_cases h2 : memT c.creating t = true
    · simpa [h2] using findScan_pres W c bld i c.types
    · simp [h2]
      exact pres_refl c

/-! ### One-step unfolding lemmas for the interpreter -/

theorem interp_findDep_ptr (W : World) (m : Nat) (bld : Req) (g : GoType) (c : St) :
    interp W (m + 1) (.findDep bld (.ptr g)) c = interp W m (.gOCC g) c := rfl

theorem interp_findDep_iface (W : World) (m : Nat) (bld : Req) (i : Nat) (c : St) :
    interp W (m + 1) (.findDep bld (.iface i)) c = interp W m (.gOCImpl bld (.iface i)) c := rfl

theorem interp_findDep_conc (W : World) (m : Nat) (bld : Req) (t : Nat) (c : St) :
    interp W (m + 1) (.findDep bld (.conc t)) c = interp W m (.gOCC (.conc t)) c := rfl

theorem interp_gOCC_hit (W : World) (m : Nat) (g : GoType) (c : St) (v : Val)
    (h1 : memT c.types g = true) (h2 : lookupK c.refs g = some v) :
    interp W (m + 1) (.gOCC g) c = (c, .ok v) := by
  simp [interp, h1, h2]

theorem interp_gOCC_miss (W : World) (m : Nat) (g : GoType) (c : St)
    (h1 : memT c.types g = true) (h2 : lookupK c.refs g = none) :
    interp W (m + 1) (.gOCC g) c = interp W m (.create g) c := by
  simp [interp, h1, h2]

theorem interp_gOCC_unreg (W : World) (m : Nat) (g : GoType) (c : St)
    (h1 : memT c.types g = false) :
    interp W (m + 1) (.gOCC g) c = (c, .error (.noSuchDep g)) := by
  simp [interp, h1]

theorem interp_gOCImpl_ok (W : World) (m : Nat) (bld : Req) (i : GoType) (c c2 : St)
    (t : GoType) (h : findImplementor W c bld i = (c2, .ok t)) :
    interp W (m + 1) (.gOCImpl bld i) c = interp W m (.gOCC t) c2 := by
  simp [interp, h]

theorem interp_gOCImpl_err (W : World) (m : Nat) (bld : Req) (i : GoType) (c c2 : St)
    (e : Err) (h : findImplementor W c bld i = (c2, .error e)) :
    interp W (m + 1) (.gOCImpl bld i) c = (c2, .error e) := by
  simp [interp, h]

theorem interp_create_eq (W : World) (m : Nat) (g : GoType) (c : St) :
    interp W (m + 1) (.create g) c =
      (({ (interp W m (.wire g c.nextVal)
            { c with creating := insertT c.creating g, nextVal := c.nextVal + 1 }).1 with
          creating := eraseT (interp W m (.wire g c.nextVal)
            { c with creating := insertT c.creating g, nextVal := c.nextVal + 1 }).1.creating g }),
       (interp W m (.wire g c.nextVal)
          { c with creating := insertT c.creating g, nextVal := c.nextVal + 1 }).2) := by
  rcases h : interp W m (.wire g c.nextVal)
      { c with creating := insertT c.creating g, nextVal := c.nextVal + 1 } with ⟨c2, r⟩
  simp [interp, h]

theorem interp_wireFields_nil (W : World) (m : Nat) (g : GoType) (c : St) :
    interp W (m + 1) (.wireFields g []) c = (c, .ok 0) := rfl

theorem interp_resolveParams_nil (W : World) (m : Nat) (bld : Req) (c : St) :
    interp W (m + 1) (.resolveParams bld []) c = (c, .ok 0) := rfl

theorem interp_resolveParams_cons_err (W : World) (m : Nat) (bld : Req) (p : GoType)
    (ps : List GoType) (c c2 : St) (e : Err)
    (h : interp W m (.findDep bld p) c = (c2, .error e)) :
    interp W (m + 1) (.resolveParams bld (p :: ps)) c = (c2, .error e) := by
  simp [interp, h]

theorem interp_wire_none_err (W : World) (m : Nat) (g : GoType) (v : Val) (c c2 : St)
    (e : Err) (hs : W.newSig g = none)
    (h : interp W m (.wireFields g (W.fields g)) c = (c2, .error e)) :
    interp W (m + 1) (.wire g v) c = (c2, .error e) := by
  simp [interp, hs, h]

theorem interp_wire_none_ok (W : World) (m : Nat) (g : GoType) (v : Val) (c c2 : St)
    (v2 : Val) (hs : W.newSig g = none)
    (h : interp W m (.wireFields g (W.fields g)) c = (c2, .ok v2)) :
    interp W (m + 1) (.wire g v) c = ({ c2 with refs := setK c2.refs g v }, .ok v) := by
  simp [interp, hs, h]

theorem interp_wire_some_err (W : World) (m : Nat) (g : GoType) (v : Val) (c c2 : St)
    (e : Err) (rk : Bool) (ps : List GoType) (hs : W.newSig g = some (rk, ps))
    (h : interp W m (.resolveParams (.ty g) ps) c = (c2, .error e)) :
    interp W (m + 1) (.wire g v) c = (c2, .error e) := by
  simp [interp, hs, h]

theorem interp_wire_some_ok (W : World) (m : Nat) (g : GoType) (v : Val) (c c2 : St)
    (v2 : Val) (rk : Bool) (ps : List GoType) (hs : W.newSig g = some (rk, ps))
    (h : interp W m (.resolveParams (.ty g) ps) c = (c2, .ok v2)) :
    interp W (m + 1) (.wire g v) c = ({ c2 with refs := setK c2.refs g v }, .ok v) := by
  simp [interp, hs, h]

/-- interp_pres: every resolver operation leaves the registry, the built
flag and the Init log unchanged, and never removes a cache entry. -/
theorem interp_pres (W : World) : ∀ n call c, Pres c (interp W n call c).1 := by
  intro n
  induction n with
  | zero => intro call c; exact pres_refl c
  | succ m IH =>
    intro call c
    cases call with
    | findDep bld g =>
      cases g with
      | ptr g2 => exact IH (.gOCC g2) c
      | iface i => exact IH (.gOCImpl bld (.iface i)) c
      | conc t => exact IH (.gOCC (.conc t)) c
    | gOCC g =>
      by_cases h1 : memT c.types g = true
      · cases h2 : lookupK c.refs g with
        | some v =>
          rw [interp_gOCC_hit W m g c v h1 h2]
          exact pres_refl c
        | none =>
          rw [interp_gOCC_miss W m g c h1 h2]
          exact IH (.create g) c
      · rw [interp_gOCC_unreg W m g c (by simpa using h1)]
        exact pres_refl c
    | gOCImpl bld i =>
      rcases h : findImplementor W c bld i with ⟨c2, r⟩
      have hp : Pres c c2 := by
        have hx := findImplementor_pres W c bld i
        rw [h] at hx
        exact hx
      cases r with
      | ok t =>
        rw [interp_gOCImpl_ok W m bld i c c2 t h]
        exact pres_trans hp (IH (.gOCC t) c2)
      | error e =>
        rw [interp_gOCImpl_err W m bld i c c2 e h]
        exact hp
    | create g =>
      rw [interp_create_eq W m g c]
      have hp1 : Pres c { c with creating := insertT c.creating g, nextVal := c.nextVal + 1 } :=
        ⟨rfl, rfl, rfl, fun _ hk => hk⟩
      have hp2 := IH (.wire g c.nextVal)
        { c with creating := insertT c.creating g, nextVal := c.nextVal + 1 }
      exact pres_trans (pres_trans hp1 hp2) ⟨rfl, rfl, rfl, fun _ hk => hk⟩
    | wire g v =>
      cases hs : W.newSig g with
      | none =>
        rcases h : interp W m (.wireFields g (W.fields g)) c with ⟨c2, r⟩
        have hp : Pres c c2 := by
          have hx := IH (.wireFields g (W.fields g)) c
          rw [h] at hx
          exact hx
        cases r with
        | ok v2 =>
          rw [interp_wire_none_ok W m g v c c2 v2 hs h]
          exact pres_trans hp ⟨rfl, rfl, rfl, fun k hk => isSome_lookupK_setK c2.refs g k v hk⟩
        | error e =>
          rw [interp_wire_none_err W m g v c c2 e hs h]
          exact hp
      | some pr =>
        obtain ⟨rk, ps⟩ := pr
        rcases h : interp W m (.resolveParams (.ty g) ps) c with ⟨c2, r⟩
        have hp : Pres c c2 := by
          have hx := IH (.resolveParams (.ty g) ps) c
          rw [h] at hx
          exact hx
        cases r with
        | ok v2 =>
          rw [interp_wire_some_ok W m g v c c2 v2 rk ps hs h]
          exact pres_trans hp ⟨rfl, rfl, rfl, fun k hk => isSome_lookupK_setK c2.refs g k v hk⟩
        | error e =>
          rw [interp_wire_some_err W m g v c c2 e rk ps hs h]
          exact hp
    | wireFields g fs =>
      cases fs with
      | nil => exact pres_refl c
      | cons p rest =>
        obtain ⟨cs, ft⟩ := p
        cases cs with
        | false => exact IH (.wireFields g rest) c
        | true =>
          rcases h : interp W m (.findDep (.ty g) ft) c with ⟨c2, r⟩
          have hp : Pres c c2 := by
            have hx := IH (.findDep (.ty g) ft) c
            rw [h] at hx
            exact hx
          cases r with
          | ok v2 =>
            have : interp W (m + 1) (.wireFields g ((true, ft) :: rest)) c =
                interp W m (.wireFields g rest) c2 := by
              simp [interp, h]
            rw [this]
            exact pres_trans hp (IH (.wireFields g rest) c2)
          | error e =>
            have : interp W (m + 1) (.wireFields g ((true, ft) :: rest)) c = (c2, .error e) := by
              simp [interp, h]
            rw [this]
            exact hp
    | resolveParams bld ps =>
      cases ps with
      | nil => exact pres_refl c
      | cons p rest =>
        rcases h : interp W m (.findDep bld p) c with ⟨c2, r⟩
        have hp : Pres c c2 := by
          have hx := IH (.findDep bld p) c
          rw [h] at hx
          exact hx
        cases r with
        | ok v2 =>
          have : interp W (m + 1) (.resolveParams bld (p :: rest)) c =
              interp W m (.resolveParams bld rest) c2 := by
            simp [interp, h]
          rw [this]
          exact pres_trans hp (IH (.resolveParams bld rest) c2)
        | error e =>
          rw [interp_resolveParams_cons_err W m bld p rest c c2 e h]
          exact hp

/-! ### Build-pass lemmas -/

/-- wire_ok_refs: a successful `wireComponent` leaves a cache entry for
the wired type (both wiring paths end with `c.refs[typ] = val`). -/
theorem wire_ok_refs (W : World) : ∀ (n : Nat) (g : GoType) (v : Val) (c c2 : St) (v2 : Val),
    interp W n (.wire g v) c = (c2, .ok v2) → lookupK c2.refs g = some v := by
  intro n g v c c2 v2 h
  cases n with
  | zero => exact absurd (congrArg Prod.snd h) (by simp [interp])
  | succ m =>
    cases hs : W.newSig g with
    | none =>
      rcases hf : interp W m (.wireFields g (W.fields g)) c with ⟨c3, r⟩
      cases r with
      | ok v3 =>
        rw [interp_wire_none_ok W m g v c c3 v3 hs hf] at h
        obtain ⟨h1, h2⟩ := Prod.mk.injEq .. ▸ h
        rw [← h1]
        exact lookupK_setK_self c3.refs g v
      | error e =>
        rw [interp_wire_none_err W m g v c c3 e hs hf] at h
        exact absurd (congrArg Prod.snd h) (by simp)
    | some pr =>
      obtain ⟨rk, ps⟩ := pr
      rcases hf : interp W m (.resolveParams (.ty g) ps) c with ⟨c3, r⟩
      cases r with
      | ok v3 =>
        rw [interp_wire_some_ok W m g v c c3 v3 rk ps hs hf] at h
        obtain ⟨h1, h2⟩ := Prod.mk.injEq .. ▸ h
        rw [← h1]
        exact lookupK_setK_self c3.refs g v
      | error e =>
        rw [interp_wire_some_err W m g v c c3 e rk ps hs hf] at h
        exact absurd (congrArg Prod.snd h) (by simp)

/-- create_ok_refs: a successful `createComponent` leaves a cache entry
for the created type. -/
theorem create_ok_refs (W : World) : ∀ (n : Nat) (g : GoType) (c c2 : St) (v2 : Val),
    interp W n (.create g) c = (c2, .ok v2) → (lookupK c2.refs g).isSome = true := by
  intro n g c c2 v2 h
  cases n with
  | zero => exact absurd (congrArg Prod.snd h) (by simp [interp])
  | succ m =>
    rw [interp_create_eq W m g c] at h
    rcases hw : interp W m (.wire g c.nextVal)
        { c with creating := insertT c.creating g, nextVal := c.nextVal + 1 } with ⟨c3, r⟩
    rw [hw] at h
    obtain ⟨h1, h2⟩ := Prod.mk.injEq .. ▸ h
    subst h2
    rw [← h1]
    simp [wire_ok_refs W m g c.nextVal _ c3 v2 hw]

theorem buildLoop_pres (fuel : Nat) (W : World) :
    ∀ ts c, Pres c (buildLoop fuel W ts c).1 := by
  intro ts
  induction ts with
  | nil => intro c; exact pres_refl c
  | cons t ts ih =>
    intro c
    by_cases h1 : (lookupK c.refs t).isSome = true
    · simpa [buildLoop, h1] using ih c
    · rcases hc : createComponent fuel W t c with ⟨c2, r⟩
      have hp : Pres c c2 := by
        have hx := interp_pres W fuel (.create t) c
        rw [show interp W fuel (.create t) c = (c2, r) from hc] at hx
        exact hx
      cases r with
      | ok v =>
        have : buildLoop fuel W (t :: ts) c = buildLoop fuel W ts c2 := by
          simp [buildLoop, h1, hc]
        rw [this]
        exact pres_trans hp (ih c2)
      | error e =>
        have : buildLoop fuel W (t :: ts) c = (c2, .error e) := by
          simp [buildLoop, h1, hc]
        rw [this]
        exact hp

/-- buildLoop_ok_allSome: after a successful pass of the build loop,
every type of the processed list has a cache entry. -/
theorem buildLoop_ok_allSome (fuel : Nat) (W : World) :
    ∀ ts c c2, buildLoop fuel W ts c = (c2, .ok ()) →
      ∀ g ∈ ts, (lookupK c2.refs g).isSome = true := by
  intro ts
  induction ts with
  | nil => intro c c2 h g hg; exact absurd hg (List.not_mem_nil g)
  | cons t ts ih =>
    intro c c2 h g hg
    by_cases h1 : (lookupK c.refs t).isSome = true
    · rw [show buildLoop fuel W (t :: ts) c = buildLoop fuel W ts c from by
        simp [buildLoop, h1]] at h
      rcases List.mem_cons.1 hg with rfl | hg2
      · have hp := buildLoop_pres fuel W ts c
        rw [h] at hp
        exact hp.2.2.2 g h1
      · exact ih c c2 h g hg2
    · rcases hc : createComponent fuel W t c with ⟨c3, r⟩
      cases r with
      | ok v =>
        rw [show buildLoop fuel W (t :: ts) c = buildLoop fuel W ts c3 from by
          simp [buildLoop, h1, hc]] at h
        rcases List.mem_cons.1 hg with rfl | hg2
        · have hs : (lookupK c3.refs g).isSome = true := create_ok_refs W fuel g c c3 v hc
          have hp := buildLoop_pres fuel W ts c3
          rw [h] at hp
          exact hp.2.2.2 g hs
        · exact ih c3 c2 h g hg2
      | error e =>
        rw [show buildLoop fuel W (t :: ts) c = (c3, .error e) from by
          simp [buildLoop, h1, hc]] at h
        exact absurd (congrArg Prod.snd h) (by simp)

/-- buildLoop_skipAll: when every type of the list already has a cache
entry, the build loop constructs nothing and the state is untouched. -/
theorem buildLoop_skipAll (fuel : Nat) (W : World) :
    ∀ ts c, (∀ g ∈ ts, (lookupK c.refs g).isSome = true) →
      buildLoop fuel W ts c = (c, .ok ()) := by
  intro ts
  induction ts with
  | nil => intro c _; rfl
  | cons t ts ih =>
    intro c hall
    have h1 : (lookupK c.refs t).isSome = true := hall t (List.mem_cons_self t ts)
    simp [buildLoop, h1]
    exact ih c (fun g hg => hall g (List.mem_cons_of_mem t hg))

/-- initLoop_eq: one pass of the Init loop appends exactly the Init
invocations of the iterated cache entries to the log and changes nothing
else. -/
theorem initLoop_eq (W : World) :
    ∀ rs c, initLoop W rs c = { c with inits := c.inits ++ initsOf W rs } := by
  intro rs
  induction rs with
  | nil => intro c; simp [initLoop, initsOf]
  | cons p rs ih =>
    intro c
    obtain ⟨g, v⟩ := p
    by_cases h : W.hasInit g = true
    · simp [initLoop, h, ih, initsOf]
    · simp [initLoop, h, ih, initsOf, Bool.of_not_eq_true h]

instance (W : World) : IsTotal GoType (ctorLe W) :=
  ⟨fun a b => Int.le_total (constructorArgCount W a) (constructorArgCount W b)⟩

instance (W : World) : IsTrans GoType (ctorLe W) :=
  ⟨fun _ _ _ h1 h2 => Int.le_trans h1 h2⟩

theorem setBuilt_eq {s : St} (h : s.hasBuilt = true) : { s with hasBuilt := true } = s := by
  cases s
  simp_all

/-- Build_ok_parts: what a successful `Build` guarantees: the built flag
is set, the registry is the sorted registry, every registered type has a
cache entry, and the Init log grew by exactly one entry per cached
instance with an Init hook. -/
theorem Build_ok_parts (fuel : Nat) (W : World) (c c1 : St)
    (h : Build fuel W c = (c1, .ok ())) :
    c1.hasBuilt = true ∧
    c1.types = List.insertionSort (ctorLe W) c.types ∧
    (∀ g ∈ c1.types, (lookupK c1.refs g).isSome = true) ∧
    c1.inits = c.inits ++ initsOf W c1.refs := by
  have hc0 : ({ c with types := List.insertionSort (ctorLe W) c.types } : St).types
      = List.insertionSort (ctorLe W) c.types := rfl
  rcases hb : buildLoop fuel W (List.insertionSort (ctorLe W) c.types)
      { c with types := List.insertionSort (ctorLe W) c.types } with ⟨cb, r⟩
  cases r with
  | error e =>
    rw [show Build fuel W c = (cb, .error e) from by simp [Build, hb]] at h
    exact absurd (congrArg Prod.snd h) (by simp)
  | ok u =>
    cases u
    have hbuild : Build fuel W c
        = ({ initLoop W cb.refs cb with hasBuilt := true }, .ok ()) := by
      simp [Build, hb]
    rw [hbuild] at h
    obtain ⟨h1, _⟩ := Prod.mk.injEq .. ▸ h
    have hpres : Pres { c with types := List.insertionSort (ctorLe W) c.types } cb := by
      have hx := buildLoop_pres fuel W (List.insertionSort (ctorLe W) c.types)
        { c with types := List.insertionSort (ctorLe W) c.types }
      rw [hb] at hx
      exact hx
    have hil := initLoop_eq W cb.refs cb
    have hc1 : c1 = { cb with inits := cb.inits ++ initsOf W cb.refs, hasBuilt := true } := by
      rw [← h1, hil]
    have htypes : c1.types = List.insertionSort (ctorLe W) c.types := by
      rw [hc1]
      exact hpres.1
    refine ⟨by rw [hc1], htypes, ?_, ?_⟩
    · intro g hg
      have hrefs : c1.refs = cb.refs := by rw [hc1]
      rw [hrefs]
      apply buildLoop_ok_allSome fuel W _ _ cb hb g
      rw [htypes] at hg
      exact hg
    · have hinits : cb.inits = c.inits := hpres.2.2.1
      rw [hc1]
      simp [hinits]

/-! ### Implementor-search lemmas -/

/-- findScan_eq: the scan loop of `findImplementor` picks exactly the
first registered type whose pointer form implements the interface and
that is not under construction, binding it; it fails naming interface
and requester when there is none. -/
theorem findScan_eq (W : World) (c : St) (bld : Req) (i : GoType) :
    ∀ ts, findScan W c bld i ts =
      match ts.find? (fun t => W.ptrImplements t i && !(memT c.creating t)) with
      | some t => ({ c with impls := setK c.impls i t }, .ok t)
      | none => (c, .error (.noImpl i bld)) := by
  intro ts
  induction ts with
  | nil => rfl
  | cons t ts ih =>
    by_cases h1 : W.ptrImplements t i = true
    · by_cases h2 : memT c.creating t = true
      · simpa [findScan, h1, h2, List.find?] using ih
      · simp [findScan, h1, h2, List.find?, Bool.of_not_eq_true h2]
    · simpa [findScan, h1, List.find?, Bool.of_not_eq_true h1] using ih

/-- findScan_ok_not_creating: a type selected by the scan is never one
that is currently under construction. -/
theorem findScan_ok_not_creating (W : World) (c : St) (bld : Req) (i : GoType) :
    ∀ ts c2 t, findScan W c bld i ts = (c2, .ok t) → memT c.creating t = false := by
  intro ts
  induction ts with
  | nil => intro c2 t h; exact absurd (congrArg Prod.snd h) (by simp [findScan])
  | cons u ts ih =>
    intro c2 t h
    by_cases h1 : W.ptrImplements u i = true
    · by_cases h2 : memT c.creating u = true
      · rw [show findScan W c bld i (u :: ts) = findScan W c bld i ts from by
          simp [findScan, h1, h2]] at h
        exact ih c2 t h
      · rw [show findScan W c bld i (u :: ts)
            = ({ c with impls := setK c.impls i u }, .ok u) from by
          simp [findScan, h1, h2]] at h
        have : u = t := by
          have := congrArg Prod.snd h
          simpa using this
        rw [← this]
        exact Bool.of_not_eq_true h2
    · rw [show findScan W c bld i (u :: ts) = findScan W c bld i ts from by
        simp [findScan, h1]] at h
      exact ih c2 t h

/-- findScan_all_creating: when every implementor in the scanned list is
currently under construction, the scan fails with the missing-implementor
error, naming the interface and the requester. -/
theorem findScan_all_creating (W : World) (c : St) (bld : Req) (i : GoType) :
    ∀ ts, (∀ g ∈ ts, W.ptrImplements g i = true → memT c.creating g = true) →
      findScan W c bld i ts = (c, .error (.noImpl i bld)) := by
  intro ts
  induction ts with
  | nil => intro _; rfl
  | cons u ts ih =>
    intro hall
    by_cases h1 : W.ptrImplements u i = true
    · have h2 : memT c.creating u = true := hall u (List.mem_cons_self u ts) h1
      simp [findScan, h1, h2]
      exact ih (fun g hg hi => hall g (List.mem_cons_of_mem u hg) hi)
    · simp [findScan, h1]
      exact ih (fun g hg hi => hall g (List.mem_cons_of_mem u hg) hi)

/-- findImplementor_ok_not_creating: the implementor chosen for an
interface (from the binding or from the scan) is never a type currently
under construction. -/
theorem findImplementor_ok_not_creating (W : World) (c : St) (bld : Req) (i : GoType)
    (c2 : St) (t : GoType) (h : findImplementor W c bld i = (c2, .ok t)) :
    memT c.creating t = false := by
  cases hl : lookupK c.impls i with
  | none =>
    simp only [findImplementor, hl] at h
    exact findScan_ok_not_creating W c bld i c.types c2 t h
  | some u =>
    simp only [findImplementor, hl] at h
    by_cases h2 : memT c.creating u = true
    · rw [if_pos h2] at h
      exact findScan_ok_not_creating W c bld i c.types c2 t h
    · rw [if_neg h2] at h
      have : u = t := by
        have := congrArg Prod.snd h
        simpa using this
      rw [← this]
      exact Bool.of_not_eq_true h2

/-- findImplementor_none_of_all_creating: when no binding exists and
every implementor of the interface among the registered types is under
construction, the implementor search fails with the missing-implementor
error, leaving the state unchanged. -/
theorem findImplementor_none_of_all_creating (W : World) (c : St) (bld : Req) (i : GoType)
    (himp : lookupK c.impls i = none)
    (hall : ∀ g ∈ c.types, W.ptrImplements g i = true → memT c.creating g = true) :
    findImplementor W c bld i = (c, .error (.noImpl i bld)) := by
  have h2 : findImplementor W c bld i = findScan W c bld i c.types := by
    unfold findImplementor
    rw [himp]
  rw [h2]
  exact findScan_all_creating W c bld i c.types hall

/-! ### Claim theorems -/

/-- C1: for every interface requirement resolved by the Graph Resolver:
if an interface binding already exists and its target type is not
currently under construction, that target is used; otherwise the
registered Component Types are scanned in registration order and the
first type whose pointer form implements the interface and is not
currently under construction is selected and recorded as the binding;
if no such type exists, resolution fails fatally naming both the
interface and the requesting type.  Stated as: `findImplementor` equals
the function written from the claim's words. -/
theorem claim1_implementor_search (W : World) (c : St) (bld : Req) (i : GoType) :
    findImplementor W c bld i = findImplementorSpec W c bld i := by
  unfold findImplementor findImplementorSpec findFirstSpec
  cases hl : lookupK c.impls i with
  | none => exact findScan_eq W c bld i c.types
  | some t =>
    by_cases h2 : memT c.creating t = true
    · simp only [h2, if_true, Bool.true_eq_false, if_false]
      exact findScan_eq W c bld i c.types
    · have h2f : memT c.creating t = false := Bool.of_not_eq_true h2
      simp [h2f]

/-- C2: once an Instance Cache entry exists for a type (stored by
registering a pointer instance or by construction), resolving that type
returns exactly that cached instance with the container state unchanged
(so no construction occurs and a repeated load returns the same
instance), and registering a pointer instance and then resolving its
type never triggers construction.  `Load`/`TryLoad` read the state
without writing (their Go receivers perform no assignment), so two
`Load` calls evaluate the same function of the same state. -/
theorem claim2_cache_short_circuit :
    (∀ (n : Nat) (W : World) (bld : Req) (c : St) (g : GoType) (v : Val),
      memT c.types g = true → lookupK c.refs g = some v →
      getOrCreateComponent (n + 1) W g c = (c, .ok v) ∧
      findDep (n + 2) W bld (.ptr g) c = (c, .ok v)) ∧
    (∀ (c : St) (k : Nat) (v : Val), lookupK c.refs (.conc k) = some v →
      TryLoad c (.ptr (.conc k)) = some v ∧ Load c (.ptr (.conc k)) = .ok v) ∧
    (∀ (n : Nat) (W : World) (k : Nat) (v : Val) (c : St),
      getOrCreateComponent (n + 1) W (.conc k) (Register c (.pointer (.conc k) v))
        = (Register c (.pointer (.conc k) v), .ok v)) := by
  refine ⟨?_, ?_, ?_⟩
  · intro n W bld c g v h1 h2
    refine ⟨interp_gOCC_hit W n g c v h1 h2, ?_⟩
    show interp W (n + 1 + 1) (.findDep bld (.ptr g)) c = (c, .ok v)
    rw [interp_findDep_ptr]
    exact interp_gOCC_hit W n g c v h1 h2
  · intro c k v h
    exact ⟨by simp [TryLoad, getNormalizedType, h], by simp [Load, TryLoad, getNormalizedType, h]⟩
  · intro n W k v c
    exact interp_gOCC_hit W n (.conc k) (Register c (.pointer (.conc k) v)) v
      (memT_append_single c.types (.conc k)) (lookupK_setK_self c.refs (.conc k) v)

/-- Wx is a concrete world with no hooks, no fields and no interface
satisfaction, used by witnesses. -/
def Wx : World := ⟨fun _ => none, fun _ => false, fun _ => [], fun _ _ => false⟩

/-- cx is a concrete container state with one registered type that has a
cached instance `3`. -/
def cx : St := ⟨[.conc 0], [], [(.conc 0, 3)], [], false, 9, []⟩

theorem claim2_witness :
    (getOrCreateComponent 1 Wx (.conc 0) cx = (cx, .ok 3) ∧
      findDep 2 Wx (.fn []) (.ptr (.conc 0)) cx = (cx, .ok 3)) ∧
    (TryLoad cx (.ptr (.conc 0)) = some 3 ∧ Load cx (.ptr (.conc 0)) = .ok 3) ∧
    getOrCreateComponent 1 Wx (.conc 0) (Register cx (.pointer (.conc 0) 3))
      = (Register cx (.pointer (.conc 0) 3), .ok 3) :=
  ⟨claim2_cache_short_circuit.1 0 Wx (.fn []) cx (.conc 0) 3 (by decide) (by decide),
   claim2_cache_short_circuit.2.1 cx 0 3 (by decide),
   claim2_cache_short_circuit.2.2 0 Wx 0 3 cx⟩

/-- Wtr is a concrete world with a transitive self-requirement: type 0
requires interface 1 (implemented only by type 1) and type 1 requires
interface 0 (implemented only by type 0). -/
def Wtr : World :=
  ⟨fun g =>
      if g = .conc 0 then some (false, [.iface 1])
      else if g = .conc 1 then some (false, [.iface 0]) else none,
   fun _ => false, fun _ => [],
   fun g i =>
      if g = .conc 0 ∧ i = .iface 0 then true
      else if g = .conc 1 ∧ i = .iface 1 then true else false⟩

/-- ctr is a concrete unbuilt state with types 0 and 1 registered. -/
def ctr : St := ⟨[.conc 0, .conc 1], [], [], [], false, 0, []⟩

/-- selfInterfaceGuard: what the construction guard does deliver: the
resolver never selects a type currently under construction as an
implementor (first conjunct, fully general); a registered type whose
wiring hook directly requires an interface that only that type itself
implements fails construction with the fatal missing-implementor error
naming the interface and the requester, uniformly in the fuel (second
conjunct); and in `Wtr`, where type 0 transitively requires its own
interface through type 1 with only interface parameters in between,
construction of type 0 fails the same way, naming interface 0 and the
requester type 1, with the guard fully unwound (third conjunct).
Claim C3's universal statement nevertheless fails: see
`claim3_cycle_divergence`. -/
theorem selfInterfaceGuard :
    (∀ (W : World) (c : St) (bld : Req) (i : GoType) (c2 : St) (t : GoType),
      findImplementor W c bld i = (c2, .ok t) → memT c.creating t = false) ∧
    (∀ (n : Nat) (W : World) (c : St) (t : GoType) (i : Nat) (rk : Bool),
      W.newSig t = some (rk, [.iface i]) →
      lookupK c.impls (.iface i) = none →
      (∀ g ∈ c.types, W.ptrImplements g (.iface i) = true → g = t) →
      (createComponent (n + 5) W t c).2 = .error (.noImpl (.iface i) (.ty t))) ∧
    ((createComponent 20 Wtr (.conc 0) ctr).2
        = .error (.noImpl (.iface 0) (.ty (.conc 1))) ∧
      (createComponent 20 Wtr (.conc 0) ctr).1.creating = []) := by
  refine ⟨?_, ?_, by decide⟩
  · exact fun W c bld i c2 t h => findImplementor_ok_not_creating W c bld i c2 t h
  · intro n W c t i rk hsig himp hall
    have hfi : findImplementor W
        { c with creating := insertT c.creating t, nextVal := c.nextVal + 1 }
        (.ty t) (.iface i)
        = ({ c with creating := insertT c.creating t, nextVal := c.nextVal + 1 },
           .error (.noImpl (.iface i) (.ty t))) := by
      apply findImplementor_none_of_all_creating
      · exact himp
      · intro g hg hgi
        have hgt : g = t := hall g hg hgi
        rw [hgt]
        exact memT_insertT_self c.creating t
    have hfd : interp W (n + 2) (.findDep (.ty t) (.iface i))
        { c with creating := insertT c.creating t, nextVal := c.nextVal + 1 }
        = ({ c with creating := insertT c.creating t, nextVal := c.nextVal + 1 },
           .error (.noImpl (.iface i) (.ty t))) := by
      show interp W (n + 1 + 1) (.findDep (.ty t) (.iface i)) _ = _
      rw [interp_findDep_iface]
      exact interp_gOCImpl_err W n (.ty t) (.iface i) _ _ _ hfi
    have hrp : interp W (n + 3) (.resolveParams (.ty t) [.iface i])
        { c with creating := insertT c.creating t, nextVal := c.nextVal + 1 }
        = ({ c with creating := insertT c.creating t, nextVal := c.nextVal + 1 },
           .error (.noImpl (.iface i) (.ty t))) :=
      interp_resolveParams_cons_err W (n + 2) (.ty t) (.iface i) [] _ _ _ hfd
    have hw : interp W (n + 4) (.wire t c.nextVal)
        { c with creating := insertT c.creating t, nextVal := c.nextVal + 1 }
        = ({ c with creating := insertT c.creating t, nextVal := c.nextVal + 1 },
           .error (.noImpl (.iface i) (.ty t))) :=
      interp_wire_some_err W (n + 3) t c.nextVal _ _ _ rk [.iface i] hsig hrp
    show (interp W (n + 4 + 1) (.create t) c).2 = _
    rw [interp_create_eq W (n + 4) t c, hw]

/-- W3c is a concrete world where type 0 declares `New(I0)` and is the
only implementor of interface 0. -/
def W3c : World :=
  ⟨fun g => if g = .conc 0 then some (false, [.iface 0]) else none,
   fun _ => false, fun _ => [],
   fun g i => if g = .conc 0 ∧ i = .iface 0 then true else false⟩

/-- c3a is a concrete state with a non-creating binding for interface 0. -/
def c3a : St := ⟨[], [(.iface 0, .conc 1)], [], [], false, 0, []⟩

/-- c3b is a concrete state with only the self-requiring type 0
registered. -/
def c3b : St := ⟨[.conc 0], [], [], [], false, 0, []⟩

/-- selfInterfaceGuard_example instantiates `selfInterfaceGuard` at
concrete inputs. -/
theorem selfInterfaceGuard_example :
    memT c3a.creating (.conc 1) = false ∧
    (createComponent 5 W3c (.conc 0) c3b).2 = .error (.noImpl (.iface 0) (.ty (.conc 0))) :=
  ⟨selfInterfaceGuard.1 W3c c3a (.fn []) (.iface 0) c3a (.conc 1) (by decide),
   selfInterfaceGuard.2.1 0 W3c c3b (.conc 0) 0 false (by decide) (by decide)
     (by decide)⟩

/-- Wcyc is a concrete world with a transitive self-requirement routed
through a concrete pointer cycle: type 0 declares `New(*T1)` and type 1
declares `New(*T0, I2)`, and only type 0's pointer form implements
interface 2 — the shape of the repository's own usage (a constructor
taking a pointer dependency plus an interface dependency). -/
def Wcyc : World :=
  ⟨fun g =>
      if g = .conc 0 then some (false, [.ptr (.conc 1)])
      else if g = .conc 1 then some (false, [.ptr (.conc 0), .iface 2]) else none,
   fun _ => false, fun _ => [],
   fun g i => if g = .conc 0 ∧ i = .iface 2 then true else false⟩

/-- ccyc is a concrete unbuilt state with types 0 and 1 registered and
nothing cached. -/
def ccyc : St := ⟨[.conc 0, .conc 1], [], [], [], false, 0, []⟩

/-- cyc_loop: in `Wcyc`, from any state in which types 0 and 1 are
registered and neither is cached, every operation on the resolution
cycle of type 0 exhausts any amount of fuel: the recursion
`create 0 → wire 0 → *T1 → create 1 → wire 1 → *T0 → create 0 → ...`
never terminates and never reaches the interface requirement, because
`getOrCreateComponent` consults only the registry and the cache — the
construction guard is consulted by `findImplementor` alone, so a
concrete pointer cycle is unguarded.  The cache stays empty along the
way since `wireComponent` stores its entry only after wiring succeeds. -/
theorem cyc_loop : ∀ fuel : Nat, ∀ c : St,
    memT c.types (.conc 0) = true → memT c.types (.conc 1) = true →
    lookupK c.refs (.conc 0) = none → lookupK c.refs (.conc 1) = none →
    (interp Wcyc fuel (.gOCC (.conc 0)) c).2 = .error .outOfFuel ∧
    (interp Wcyc fuel (.gOCC (.conc 1)) c).2 = .error .outOfFuel ∧
    (interp Wcyc fuel (.create (.conc 0)) c).2 = .error .outOfFuel ∧
    (interp Wcyc fuel (.create (.conc 1)) c).2 = .error .outOfFuel ∧
    (∀ v, (interp Wcyc fuel (.wire (.conc 0) v) c).2 = .error .outOfFuel) ∧
    (∀ v, (interp Wcyc fuel (.wire (.conc 1) v) c).2 = .error .outOfFuel) ∧
    (∀ bld, (interp Wcyc fuel (.findDep bld (.ptr (.conc 0))) c).2 = .error .outOfFuel) ∧
    (∀ bld, (interp Wcyc fuel (.findDep bld (.ptr (.conc 1))) c).2 = .error .outOfFuel) ∧
    (∀ bld, (interp Wcyc fuel (.resolveParams bld [.ptr (.conc 1)]) c).2
      = .error .outOfFuel) ∧
    (∀ bld, (interp Wcyc fuel (.resolveParams bld [.ptr (.conc 0), .iface 2]) c).2
      = .error .outOfFuel) := by
  intro fuel
  induction fuel with
  | zero =>
    intro c h0 h1 hr0 hr1
    exact ⟨rfl, rfl, rfl, rfl, fun _ => rfl, fun _ => rfl, fun _ => rfl, fun _ => rfl,
      fun _ => rfl, fun _ => rfl⟩
  | succ m IH =>
    intro c h0 h1 hr0 hr1
    refine ⟨?_, ?_, ?_, ?_, ?_, ?_, ?_, ?_, ?_, ?_⟩
    · rw [interp_gOCC_miss Wcyc m (.conc 0) c h0 hr0]
      exact (IH c h0 h1 hr0 hr1).2.2.1
    · rw [interp_gOCC_miss Wcyc m (.conc 1) c h1 hr1]
      exact (IH c h0 h1 hr0 hr1).2.2.2.1
    · rw [interp_create_eq Wcyc m (.conc 0) c]
      exact (IH { c with creating := insertT c.creating (.conc 0), nextVal := c.nextVal + 1 }
        h0 h1 hr0 hr1).2.2.2.2.1 c.nextVal
    · rw [interp_create_eq Wcyc m (.conc 1) c]
      exact (IH { c with creating := insertT c.creating (.conc 1), nextVal := c.nextVal + 1 }
        h0 h1 hr0 hr1).2.2.2.2.2.1 c.nextVal
    · intro v
      rcases hrp : interp Wcyc m (.resolveParams (.ty (.conc 0)) [.ptr (.conc 1)]) c
        with ⟨c2, r⟩
      have hr : r = .error .outOfFuel := by
        have hx := (IH c h0 h1 hr0 hr1).2.2.2.2.2.2.2.2.1 (.ty (.conc 0))
        rw [hrp] at hx
        exact hx
      subst hr
      rw [interp_wire_some_err Wcyc m (.conc 0) v c c2 .outOfFuel false [.ptr (.conc 1)]
        (by decide) hrp]
    · intro v
      rcases hrp : interp Wcyc m (.resolveParams (.ty (.conc 1)) [.ptr (.conc 0), .iface 2]) c
        with ⟨c2, r⟩
      have hr : r = .error .outOfFuel := by
        have hx := (IH c h0 h1 hr0 hr1).2.2.2.2.2.2.2.2.2 (.ty (.conc 1))
        rw [hrp] at hx
        exact hx
      subst hr
      rw [interp_wire_some_err Wcyc m (.conc 1) v c c2 .outOfFuel false
        [.ptr (.conc 0), .iface 2] (by decide) hrp]
    · intro bld
      rw [interp_findDep_ptr]
      exact (IH c h0 h1 hr0 hr1).1
    · intro bld
      rw [interp_findDep_ptr]
      exact (IH c h0 h1 hr0 hr1).2.1
    · intro bld
      rcases hfd : interp Wcyc m (.findDep bld (.ptr (.conc 1))) c with ⟨c2, r⟩
      have hr : r = .error .outOfFuel := by
        have hx := (IH c h0 h1 hr0 hr1).2.2.2.2.2.2.2.1 bld
        rw [hfd] at hx
        exact hx
      subst hr
      rw [interp_resolveParams_cons_err Wcyc m bld (.ptr (.conc 1)) [] c c2 .outOfFuel hfd]
    · intro bld
      rcases hfd : interp Wcyc m (.findDep bld (.ptr (.conc 0))) c with ⟨c2, r⟩
      have hr : r = .error .outOfFuel := by
        have hx := (IH c h0 h1 hr0 hr1).2.2.2.2.2.2.1 bld
        rw [hfd] at hx
        exact hx
      subst hr
      rw [interp_resolveParams_cons_err Wcyc m bld (.ptr (.conc 0)) [.iface 2] c c2
        .outOfFuel hfd]

/-- C3: the claim is refuted by the code: a registered type whose
wiring hook transitively requires an interface that only that type
itself implements does not always fail fatally — when the transitive
path runs through a concrete pointer dependency cycle (type 0 requires
`*T1`, type 1 requires `*T0` before interface 2, which only type 0
implements), resolution recurses forever without reaching the interface
requirement, for every amount of fuel, instead of failing with the
missing-implementor error.  This contradicts the code's own comment at
`createComponent` (part_001:189-191), which says the construction guard
"also prevents cyclic references": the guard is consulted only by
`findImplementor`, never by `getOrCreateComponent`, so concrete cycles
are unguarded — the claim states the documented intent and the code is
the slip.  (The guarded fragment the code does deliver is proved in
`selfInterfaceGuard`.) -/
theorem claim3_cycle_divergence :
    Wcyc.newSig (.conc 0) = some (false, [.ptr (.conc 1)]) ∧
    Wcyc.newSig (.conc 1) = some (false, [.ptr (.conc 0), .iface 2]) ∧
    Wcyc.ptrImplements (.conc 0) (.iface 2) = true ∧
    Wcyc.ptrImplements (.conc 1) (.iface 2) = false ∧
    ∀ fuel : Nat, (createComponent fuel Wcyc (.conc 0) ccyc).2 = .error .outOfFuel := by
  refine ⟨rfl, rfl, rfl, rfl, ?_⟩
  intro fuel
  exact (cyc_loop fuel ccyc (by decide) (by decide) rfl rfl).2.2.1

/-- C8: a type entered into the construction-in-progress set at the
start of its construction is removed on every exit path — the result
state of `createComponent` never retains the guard entry, whether the
wiring succeeded, failed fatally, or ran out of fuel, mirroring the
deferred `delete(c.creating, typ)`. -/
theorem claim8_guard_released (n : Nat) (W : World) (g : GoType) (c : St) :
    memT ((createComponent (n + 1) W g c).1).creating g = false := by
  show memT ((interp W (n + 1) (.create g) c).1).creating g = false
  rw [interp_create_eq W n g c]
  exact memT_eraseT_self _ g

/-- C9: `tryLoad` on a miss returns not-found — in particular for a
concrete type never registered and never cached, and for an interface
with no binding — while `load` on the same input fails fatally naming
the marker's type.  `TryLoad` is a pure reader of the state (its Go
receiver performs no write), so the container state is unchanged by
construction of the model. -/
theorem claim9_tolerant_vs_strict :
    (∀ (c : St) (k : Nat), memT c.types (.conc k) = false →
      lookupK c.refs (.conc k) = none →
      TryLoad c (.ptr (.conc k)) = none ∧
      Load c (.ptr (.conc k)) = .error (.loadNotFound (.ptr (.conc k)))) ∧
    (∀ (c : St) (i : Nat), lookupK c.impls (.iface i) = none →
      TryLoad c (.ptr (.iface i)) = none ∧
      Load c (.ptr (.iface i)) = .error (.loadNotFound (.ptr (.iface i)))) := by
  constructor
  · intro c k _ h2
    exact ⟨by simp [TryLoad, getNormalizedType, h2],
      by simp [Load, TryLoad, getNormalizedType, h2]⟩
  · intro c i h
    exact ⟨by simp [TryLoad, getNormalizedType, h],
      by simp [Load, TryLoad, getNormalizedType, h]⟩

/-- c9e is the empty container state. -/
def c9e : St := ⟨[], [], [], [], false, 0, []⟩

theorem claim9_witness :
    (TryLoad c9e (.ptr (.conc 0)) = none ∧
      Load c9e (.ptr (.conc 0)) = .error (.loadNotFound (.ptr (.conc 0)))) ∧
    (TryLoad c9e (.ptr (.iface 0)) = none ∧
      Load c9e (.ptr (.iface 0)) = .error (.loadNotFound (.ptr (.iface 0)))) :=
  ⟨claim9_tolerant_vs_strict.1 c9e 0 (by decide) (by decide),
   claim9_tolerant_vs_strict.2 c9e 0 (by decide)⟩

/-! ### Build idempotence (claim C4) -/

/-- Build_cached: a `Build` on a state in which every registered type
(after sorting) already has a cache entry performs no construction: it
only re-sorts the registry, re-runs the Init hooks of all cached
instances, and re-sets the built flag. -/
theorem Build_cached (fuel : Nat) (W : World) (c : St)
    (hAll : ∀ g ∈ List.insertionSort (ctorLe W) c.types, (lookupK c.refs g).isSome = true) :
    Build fuel W c =
      ({ c with
          types := List.insertionSort (ctorLe W) c.types
          hasBuilt := true
          inits := c.inits ++ initsOf W c.refs }, .ok ()) := by
  have hskip := buildLoop_skipAll fuel W (List.insertionSort (ctorLe W) c.types)
    { c with types := List.insertionSort (ctorLe W) c.types } hAll
  simp [Build, hskip, initLoop_eq]

/-- W4c is a concrete world whose single type carries an Init hook. -/
def W4c : World := ⟨fun _ => none, fun g => g = .conc 0, fun _ => [], fun _ _ => false⟩

/-- c4c is a concrete unbuilt state with one registered instance. -/
def c4c : St := ⟨[.conc 0], [], [(.conc 0, 5)], [], false, 6, []⟩

/-- c4b is the state produced by the first successful `Build` on `c4c`. -/
def c4b : St := ⟨[.conc 0], [], [(.conc 0, 5)], [], true, 6, [(.conc 0, 5)]⟩

/-- C4 counterexample: `build()` is not a no-op after its first success:
a second `Build` invokes the Init lifecycle hook again on every cached
instance (the Init log grows from one entry to two), contradicting
"no lifecycle hook is invoked again". -/
theorem claim4_counterexample :
    (Build 5 W4c c4c).2 = .ok () ∧
    (Build 5 W4c c4c).1.inits = [(.conc 0, 5)] ∧
    (Build 5 W4c (Build 5 W4c c4c).1).1.inits = [(.conc 0, 5), (.conc 0, 5)] := by
  decide

/-- C4 amended: after a successful `Build`, a subsequent `Build` call
performs no new construction and leaves the registry, bindings, cache,
allocation counter and guard unchanged, but it is not a full no-op: it
invokes the post-wiring hook (`Init`) once more on every cached
instance.  The result state differs from the input exactly by that
appended Init log. -/
theorem claim4_amended : ∀ (fuel fuel2 : Nat) (W : World) (c c1 : St),
    Build fuel W c = (c1, .ok ()) →
    Build fuel2 W c1 = ({ c1 with inits := c1.inits ++ initsOf W c1.refs }, .ok ()) := by
  intro fuel fuel2 W c c1 h
  obtain ⟨hB, hT, hAll, _⟩ := Build_ok_parts fuel W c c1 h
  have hsorted : List.Sorted (ctorLe W) c1.types := by
    rw [hT]
    exact List.sorted_insertionSort (ctorLe W) c.types
  have hidem : List.insertionSort (ctorLe W) c1.types = c1.types :=
    List.Sorted.insertionSort_eq hsorted
  have hAll2 : ∀ g ∈ List.insertionSort (ctorLe W) c1.types,
      (lookupK c1.refs g).isSome = true := by
    rw [hidem]
    exact hAll
  have hbc := Build_cached fuel2 W c1 hAll2
  rw [hbc, hidem]
  obtain ⟨ts, im, rf, cr, hb, nv, ini⟩ := c1
  simp only at hB
  subst hB
  rfl

theorem claim4_witness :
    Build 3 W4c c4b = ({ c4b with inits := c4b.inits ++ initsOf W4c c4b.refs }, .ok ()) :=
  claim4_amended 5 3 W4c c4c c4b (by decide)

/-! ### Lookups and the initial build (claim C5) -/

/-- c5c is a concrete unbuilt state with one registered (never
constructed) type. -/
def c5c : St := ⟨[.conc 0], [], [], [], false, 0, []⟩

/-- C5 counterexample: before the initial wiring pass, an explicit
lookup does not trigger the build: `Load` on the registered type fails
fatally even though an actual build succeeds and would make the same
lookup succeed — so lookups cannot have triggered it. -/
theorem claim5_counterexample :
    c5c.hasBuilt = false ∧
    TryLoad c5c (.ptr (.conc 0)) = none ∧
    Load c5c (.ptr (.conc 0)) = .error (.loadNotFound (.ptr (.conc 0))) ∧
    (Build 9 Wx c5c).2 = .ok () ∧
    Load (Build 9 Wx c5c).1 (.ptr (.conc 0)) = .ok 0 := by
  decide

/-- C5 amended: explicit lookups (`Load`/`TryLoad`) never trigger the
initial build (they are pure readers; the counterexample exhibits the
divergence); it is the entry-point invocations `Exec` and `Run` that
trigger the initial full build when it has not completed, exactly once:
once built (flag set by a successful pass), they skip the build step. -/
theorem claim5_amended :
    (∀ (fuel : Nat) (W : World) (sig : List GoType) (c : St), c.hasBuilt = true →
      Exec fuel W sig c = execTop fuel W sig c) ∧
    (∀ (fuel : Nat) (W : World) (g : GoType) (v : Val) (c : St), c.hasBuilt = true →
      Run fuel W g v c = runWire fuel W g v c) ∧
    (∀ (fuel : Nat) (W : World) (sig : List GoType) (c : St), c.hasBuilt = false →
      (Exec fuel W sig c).2 = .ok () → (Exec fuel W sig c).1.hasBuilt = true) ∧
    (∀ (fuel : Nat) (W : World) (g : GoType) (v : Val) (c : St), c.hasBuilt = false →
      (Run fuel W g v c).2 = .ok () → (Run fuel W g v c).1.hasBuilt = true) ∧
    (∀ (fuel fuel2 : Nat) (W : World) (sig sig2 : List GoType) (c : St), c.hasBuilt = false →
      (Exec fuel W sig c).2 = .ok () →
      Exec fuel2 W sig2 (Exec fuel W sig c).1 = execTop fuel2 W sig2 (Exec fuel W sig c).1) := by
  have p1 : ∀ (fuel : Nat) (W : World) (sig : List GoType) (c : St), c.hasBuilt = true →
      Exec fuel W sig c = execTop fuel W sig c := by
    intro fuel W sig c h
    simp [Exec, h]
  have p2 : ∀ (fuel : Nat) (W : World) (g : GoType) (v : Val) (c : St), c.hasBuilt = true →
      Run fuel W g v c = runWire fuel W g v c := by
    intro fuel W g v c h
    simp [Run, h]
  have p3 : ∀ (fuel : Nat) (W : World) (sig : List GoType) (c : St), c.hasBuilt = false →
      (Exec fuel W sig c).2 = .ok () → (Exec fuel W sig c).1.hasBuilt = true := by
    intro fuel W sig c h hok
    rcases hb : Build fuel W c with ⟨c1, r⟩
    cases r with
    | error e =>
      rw [show Exec fuel W sig c = (c1, .error e) from by simp [Exec, h, hb]] at hok ⊢
      exact absurd hok (by simp)
    | ok u =>
      cases u
      rw [show Exec fuel W sig c = execTop fuel W sig c1 from by simp [Exec, h, hb]]
      have hB1 : c1.hasBuilt = true := (Build_ok_parts fuel W c c1 hb).1
      rcases he : executeFunc fuel W (.fn sig) sig c1 with ⟨c2, re⟩
      have hp : Pres c1 c2 := by
        have hx := interp_pres W fuel (.resolveParams (.fn sig) sig) c1
        rw [show interp W fuel (.resolveParams (.fn sig) sig) c1 = (c2, re) from he] at hx
        exact hx
      cases re <;> simp [execTop, he, hp.2.1, hB1]
  have p4 : ∀ (fuel : Nat) (W : World) (g : GoType) (v : Val) (c : St), c.hasBuilt = false →
      (Run fuel W g v c).2 = .ok () → (Run fuel W g v c).1.hasBuilt = true := by
    intro fuel W g v c h hok
    rcases hb : Build fuel W c with ⟨c1, r⟩
    cases r with
    | error e =>
      rw [show Run fuel W g v c = (c1, .error e) from by simp [Run, h, hb]] at hok ⊢
      exact absurd hok (by simp)
    | ok u =>
      cases u
      rw [show Run fuel W g v c = runWire fuel W g v c1 from by simp [Run, h, hb]]
      have hB1 : c1.hasBuilt = true := (Build_ok_parts fuel W c c1 hb).1
      rcases he : wireComponent fuel W g v c1 with ⟨c2, re⟩
      have hp : Pres c1 c2 := by
        have hx := interp_pres W fuel (.wire g v) c1
        rw [show interp W fuel (.wire g v) c1 = (c2, re) from he] at hx
        exact hx
      cases re <;> simp [runWire, he, hp.2.1, hB1]
  refine ⟨p1, p2, p3, p4, ?_⟩
  intro fuel fuel2 W sig sig2 c h hok
  exact p1 fuel2 W sig2 (Exec fuel W sig c).1 (p3 fuel W sig c h hok)

/-- cbt is a concrete already-built state. -/
def cbt : St := ⟨[], [], [], [], true, 0, []⟩

theorem claim5_witness :
    Exec 3 Wx [] cbt = execTop 3 Wx [] cbt ∧
    Run 3 Wx (.conc 1) 7 cbt = runWire 3 Wx (.conc 1) 7 cbt ∧
    (Exec 9 Wx [] c5c).1.hasBuilt = true ∧
    (Run 9 Wx (.conc 1) 7 c5c).1.hasBuilt = true ∧
    Exec 3 Wx [] (Exec 9 Wx [] c5c).1 = execTop 3 Wx [] (Exec 9 Wx [] c5c).1 :=
  ⟨claim5_amended.1 3 Wx [] cbt (by decide),
   claim5_amended.2.1 3 Wx (.conc 1) 7 cbt (by decide),
   claim5_amended.2.2.1 9 Wx [] c5c (by decide) (by decide),
   claim5_amended.2.2.2.1 9 Wx (.conc 1) 7 c5c (by decide) (by decide),
   claim5_amended.2.2.2.2 9 3 Wx [] [] c5c (by decide) (by decide)⟩

/-! ### Construction order (claim C6) -/

/-- W6c is a concrete world: type 0 declares `New(*T1)` with a pointer
receiver (one wiring parameter), type 1 declares `New()` with a value
receiver (zero wiring parameters). -/
def W6c : World :=
  ⟨fun g =>
      if g = .conc 0 then some (false, [.ptr (.conc 1)])
      else if g = .conc 1 then some (true, []) else none,
   fun _ => false, fun _ => [], fun _ _ => false⟩

/-- c6c is a concrete unbuilt state with types 0 and 1 registered in
that order. -/
def c6c : St := ⟨[.conc 0, .conc 1], [], [], [], false, 0, []⟩

/-- C6 counterexample: type 0 has a one-parameter wiring hook (pointer
receiver) and type 1 a zero-parameter one (value receiver), so the
claimed ascending-parameter-count order would construct type 1 first;
the code instead keeps type 0 first (its instance gets allocation id 0,
before type 1's id 1), because `constructorArgCount` looks `New` up in
the value-type method set, where a pointer-receiver `New` is invisible
(sort key -1). -/
theorem claim6_counterexample :
    W6c.newSig (.conc 0) = some (false, [.ptr (.conc 1)]) ∧
    W6c.newSig (.conc 1) = some (true, []) ∧
    constructorArgCount W6c (.conc 0) = -1 ∧
    constructorArgCount W6c (.conc 1) = 1 ∧
    (Build 20 W6c c6c).2 = .ok () ∧
    (Build 20 W6c c6c).1.types = [.conc 0, .conc 1] ∧
    lookupK (Build 20 W6c c6c).1.refs (.conc 0) = some 0 ∧
    lookupK (Build 20 W6c c6c).1.refs (.conc 1) = some 1 := by
  decide

/-- C6 amended: during the full build pass the pending types are
processed in the order of the registry sorted ascending by the
`constructorArgCount` key, where the key is `-1` when `New` is not in
the value-type method set (no `New`, or `New` with a pointer receiver)
and `1 +` the parameter count when `New` has a value receiver; only
value-receiver constructors influence the order, and order among equal
keys is unspecified (the model fixes a stable sort, one admissible
result of Go's unstable `sort.Slice`).  The build loop iterates the
sorted registry directly, so the sorted registry is the construction
order. -/
theorem claim6_amended (fuel : Nat) (W : World) (c : St) :
    (Build fuel W c).1.types = List.insertionSort (ctorLe W) c.types ∧
    List.Sorted (ctorLe W) ((Build fuel W c).1.types) ∧
    List.Perm ((Build fuel W c).1.types) c.types := by
  have htypes : (Build fuel W c).1.types = List.insertionSort (ctorLe W) c.types := by
    rcases hb : buildLoop fuel W (List.insertionSort (ctorLe W) c.types)
        { c with types := List.insertionSort (ctorLe W) c.types } with ⟨cb, r⟩
    have hp : cb.types = List.insertionSort (ctorLe W) c.types := by
      have hx := buildLoop_pres fuel W (List.insertionSort (ctorLe W) c.types)
        { c with types := List.insertionSort (ctorLe W) c.types }
      rw [hb] at hx
      exact hx.1
    cases r with
    | ok u =>
      cases u
      simp [Build, hb, initLoop_eq, hp]
    | error e =>
      simp [Build, hb, hp]
  refine ⟨htypes, ?_, ?_⟩
  · rw [htypes]
    exact List.sorted_insertionSort (ctorLe W) c.types
  · rw [htypes]
    exact List.perm_insertionSort (ctorLe W) c.types

/-! ### Post-wiring hooks (claim C7) -/

/-- W7c is a concrete world whose type 2 has an Init hook, no `New` and
no fields. -/
def W7c : World := ⟨fun _ => none, fun g => g = .conc 2, fun _ => [], fun _ _ => false⟩

/-- c7c is a concrete already-built state. -/
def c7c : St := ⟨[], [], [], [], true, 0, []⟩

/-- C7 counterexample: a runnable of a type with an Init hook, wired by
`Run` after the build pass, completes the field-wiring path and is
stored in the cache, yet its Init hook is never invoked (the Init log
stays empty), contradicting "the hook is invoked after wiring
completes ... in particular for a runnable wired by run". -/
theorem claim7_counterexample :
    W7c.hasInit (.conc 2) = true ∧
    (Run 9 W7c (.conc 2) 7 c7c).2 = .ok () ∧
    lookupK (Run 9 W7c (.conc 2) 7 c7c).1.refs (.conc 2) = some 7 ∧
    (Run 9 W7c (.conc 2) 7 c7c).1.inits = [] := by
  decide

/-- C7 amended: post-wiring hooks are invoked only by the build pass:
each successful `Build` invokes `Init` exactly once per cached instance
whose type has the hook (pre-supplied instances and instances
constructed during the pass alike, since both end in the cache), while
wiring performed lazily after the pass — a runnable wired by `Run` —
never invokes the hook. -/
theorem claim7_amended :
    (∀ (fuel : Nat) (W : World) (g : GoType) (v : Val) (c : St), c.hasBuilt = true →
      ((Run fuel W g v c).1).inits = c.inits) ∧
    (∀ (fuel : Nat) (W : World) (c c1 : St), Build fuel W c = (c1, .ok ()) →
      c1.inits = c.inits ++ initsOf W c1.refs) := by
  constructor
  · intro fuel W g v c h
    rw [show Run fuel W g v c = runWire fuel W g v c from by simp [Run, h]]
    rcases hw : wireComponent fuel W g v c with ⟨c2, r⟩
    have hp : Pres c c2 := by
      have hx := interp_pres W fuel (.wire g v) c
      rw [show interp W fuel (.wire g v) c = (c2, r) from hw] at hx
      exact hx
    cases r <;> simp [runWire, hw, hp.2.2.1]
  · intro fuel W c c1 h
    exact (Build_ok_parts fuel W c c1 h).2.2.2

/-- W7b is a concrete world whose single type carries an Init hook,
used to exhibit a successful build for the C7 witness. -/
def W7b : World := ⟨fun _ => none, fun g => g = .conc 0, fun _ => [], fun _ _ => false⟩

/-- c7u is a concrete unbuilt state with one registered instance. -/
def c7u : St := ⟨[.conc 0], [], [(.conc 0, 5)], [], false, 6, []⟩

/-- c7b is the state produced by a successful `Build` on `c7u`. -/
def c7b : St := ⟨[.conc 0], [], [(.conc 0, 5)], [], true, 6, [(.conc 0, 5)]⟩

theorem claim7_witness :
    (Run 9 W7c (.conc 3) 8 c7c).1.inits = c7c.inits ∧
    c7b.inits = c7u.inits ++ initsOf W7b c7b.refs :=
  ⟨claim7_amended.1 9 W7c (.conc 3) 8 c7c (by decide),
   claim7_amended.2 5 W7b c7u c7b (by decide)⟩

/-! ### Run-stored instances (claim C10) -/

/-- c10c is a concrete already-built state with an empty registry. -/
def c10c : St := ⟨[], [], [], [], true, 0, []⟩

/-- C10 counterexample: after `Run` wires a never-registered runnable,
`TryLoad` does return the stored instance, but a later dependency
requirement for that type still fails fatally at registry verification
(`no such dependency in registry`), so the stored instance is not used
to satisfy later requirements, contrary to the claim's final part. -/
theorem claim10_counterexample :
    (Run 9 Wx (.conc 0) 7 c10c).2 = .ok () ∧
    TryLoad (Run 9 Wx (.conc 0) 7 c10c).1 (.ptr (.conc 0)) = some 7 ∧
    (findDep 9 Wx (.fn []) (.ptr (.conc 0)) (Run 9 Wx (.conc 0) 7 c10c).1).2
      = .error (.noSuchDep (.conc 0)) := by
  decide

/-- C10 amended: whenever `Run` succeeds — for every world, every
runnable type (with or without a constructor hook, fields or
dependencies), and whether the container was built beforehand or the
call triggered the build — the wired runnable instance is stored into
the cache under its concrete type, so a subsequent `TryLoad` returns
exactly that instance; but because `Run` never extends the registry, a
later dependency requirement for a never-registered type still fails
fatally at registry verification instead of using the cached
instance. -/
theorem claim10_amended : ∀ (fuel m : Nat) (W : World) (bld : Req) (g : Nat) (v : Val)
    (c c2 : St),
    Run fuel W (.conc g) v c = (c2, .ok ()) →
    lookupK c2.refs (.conc g) = some v ∧
    TryLoad c2 (.ptr (.conc g)) = some v ∧
    (memT c.types (.conc g) = false →
      (findDep (m + 2) W bld (.ptr (.conc g)) c2).2 = .error (.noSuchDep (.conc g))) := by
  intro fuel m W bld g v c c2 hrun
  have runWireInv : ∀ c0 : St, runWire fuel W (.conc g) v c0 = (c2, .ok ()) →
      ∃ v2, wireComponent fuel W (.conc g) v c0 = (c2, .ok v2) := by
    intro c0 h
    rcases hw : wireComponent fuel W (.conc g) v c0 with ⟨c3, r⟩
    cases r with
    | ok v2 =>
      have hpair : (c3, (Except.ok () : Except Err Unit)) = (c2, .ok ()) := by
        rw [← h]
        simp [runWire, hw]
      obtain ⟨hc, _⟩ := Prod.mk.injEq .. ▸ hpair
      exact ⟨v2, by rw [hc]⟩
    | error e =>
      rw [show runWire fuel W (.conc g) v c0 = (c3, .error e) from by
        simp [runWire, hw]] at h
      exact absurd (congrArg Prod.snd h) (by simp)
  have hmain : ∃ c0 : St, (∃ v2, wireComponent fuel W (.conc g) v c0 = (c2, .ok v2)) ∧
      ((.conc g : GoType) ∈ c0.types ↔ (.conc g : GoType) ∈ c.types) := by
    by_cases hB : c.hasBuilt = true
    · rw [show Run fuel W (.conc g) v c = runWire fuel W (.conc g) v c from by
        simp [Run, hB]] at hrun
      exact ⟨c, runWireInv c hrun, Iff.rfl⟩
    · have hBf : c.hasBuilt = false := by simpa using hB
      rcases hb : Build fuel W c with ⟨c1, rb⟩
      cases rb with
      | error e =>
        rw [show Run fuel W (.conc g) v c = (c1, .error e) from by
          simp [Run, hBf, hb]] at hrun
        exact absurd (congrArg Prod.snd hrun) (by simp)
      | ok u =>
        cases u
        rw [show Run fuel W (.conc g) v c = runWire fuel W (.conc g) v c1 from by
          simp [Run, hBf, hb]] at hrun
        refine ⟨c1, runWireInv c1 hrun, ?_⟩
        rw [(Build_ok_parts fuel W c c1 hb).2.1]
        exact (List.perm_insertionSort (ctorLe W) c.types).mem_iff
  obtain ⟨c0, ⟨v2, hw⟩, hmemiff⟩ := hmain
  have hrefs : lookupK c2.refs (.conc g) = some v :=
    wire_ok_refs W fuel (.conc g) v c0 c2 v2 hw
  refine ⟨hrefs, by simp [TryLoad, getNormalizedType, hrefs], ?_⟩
  intro hmem
  have hp : Pres c0 c2 := by
    have hx := interp_pres W fuel (.wire (.conc g) v) c0
    rw [show interp W fuel (.wire (.conc g) v) c0 = (c2, .ok v2) from hw] at hx
    exact hx
  have hmem2 : memT c2.types (.conc g) = false := by
    rw [hp.1, memT_false_iff, hmemiff]
    exact (memT_false_iff c.types (.conc g)).1 hmem
  show (interp W (m + 1 + 1) (.findDep bld (.ptr (.conc g))) c2).2 = _
  rw [interp_findDep_ptr, interp_gOCC_unreg W m (.conc g) c2 hmem2]

/-- c10w is a concrete already-built state for the C10 witness. -/
def c10w : St := ⟨[], [], [], [], true, 3, []⟩

/-- c10b is the state produced by `Run 2 Wx (.conc 4) 8 c10w`. -/
def c10b : St := ⟨[], [], [(.conc 4, 8)], [], true, 3, []⟩

theorem claim10_witness :
    lookupK c10b.refs (.conc 4) = some 8 ∧
    TryLoad c10b (.ptr (.conc 4)) = some 8 ∧
    (findDep 2 Wx (.fn []) (.ptr (.conc 4)) c10b).2 = .error (.noSuchDep (.conc 4)) := by
  have h := claim10_amended 2 0 Wx (.fn []) 4 8 c10w c10b (by decide)
  exact ⟨h.1, h.2.1, h.2.2 (by decide)⟩

end DI
